import Mathlib

set_option maxRecDepth 100000

/-!
Verification of the attribute translation layer of the midea-local device
handlers (variants A1, B1, EC).  The Python source in
`src/midealocal/devices/{a1,b1,ec}/__init__.py` is shallowly embedded:
dynamic Python values become the `Value` sum type, the per-device attribute
dictionary becomes a function from an attribute tag to `Value`, and code that
can raise (list `.index`, `int(...)`, list subscripts, ordering on a dynamic
value) returns `Option`.
-/

/-- A Python runtime value as it occurs in the attribute dictionaries of the
device handlers: `None`, a bool, an int, or a str. -/
inductive Value where
  | vNone : Value
  | vBool : Bool → Value
  | vInt : Int → Value
  | vStr : String → Value
deriving DecidableEq, Repr

/-- Python truthiness, `bool(x)`, for the value shapes the handlers use. -/
def pyBool : Value → Bool
  | Value.vNone => false
  | Value.vBool b => b
  | Value.vInt n => n ≠ 0
  | Value.vStr s => s ≠ ""

/-- The numeric value of a decimal digit character. -/
def charDigit (c : Char) : Option Nat :=
  if c.isDigit then some (c.toNat - 48) else none

/-- Accumulate the value of a decimal digit string. -/
def digitsVal : List Char → Nat → Option Nat
  | [], acc => some acc
  | c :: cs, acc =>
      match charDigit c with
      | some d => digitsVal cs (acc * 10 + d)
      | none => none

/-- Python `int(s)` for a string: an optional minus sign followed by decimal
digits; `none` models the raised `ValueError`. -/
def strToInt (s : String) : Option Int :=
  match s.data with
  | [] => none
  | '-' :: rest =>
      match rest with
      | [] => none
      | _ => (digitsVal rest 0).map (fun n => -(n : Int))
  | cs => (digitsVal cs 0).map (fun n => (n : Int))

/-- Python `int(x)`; `none` models the raised `TypeError`/`ValueError` when
`x` is `None` or a non-numeric string. -/
def pyInt : Value → Option Int
  | Value.vNone => none
  | Value.vBool b => some (if b then 1 else 0)
  | Value.vInt n => some n
  | Value.vStr s => strToInt s

/-- Python `x >= w` for a dynamic `x` against an int `w`; `none` models the
`TypeError` raised when `x` is `None` or a str. -/
def pyGE (v : Value) (w : Int) : Option Bool :=
  match v with
  | Value.vInt n => some (w ≤ n)
  | Value.vBool b => some (w ≤ (if b then (1 : Int) else 0))
  | _ => none

/-- Python list subscript `l[i]` with negative-index wrap-around; `none`
models the raised `IndexError`. -/
def pyGetItem (l : List String) (i : Int) : Option String :=
  let j : Int := if i < 0 then (l.length : Int) + i else i
  if j < 0 then none else l.get? j.toNat

/-- Python membership `v in l` for a list of strings: only a str can match. -/
def valueInStrList (v : Value) (l : List String) : Bool :=
  match v with
  | Value.vStr s => l.contains s
  | _ => false

/-- Python `l.index(x)` without the raise: the index of the first occurrence
of `x` in `l`, `none` when `x` is not a member (the `ValueError` case is
handled at each use site). -/
def listIndex {α : Type} [DecidableEq α] : List α → α → Option Nat
  | [], _ => none
  | a :: rest, x =>
      if a = x then some 0 else (listIndex rest x).map (fun i => i + 1)

theorem listIndex_isSome_iff_mem {α : Type} [DecidableEq α] :
    ∀ (L : List α) (x : α), (listIndex L x).isSome ↔ x ∈ L := by
  intro L x
  induction L with
  | nil => simp [listIndex]
  | cons a rest ih =>
      by_cases hax : a = x
      · subst hax; simp [listIndex]
      · simp [listIndex, hax, Option.isSome_map, ih, Ne.symm hax]

theorem listIndex_spec {α : Type} [DecidableEq α] (d : α) :
    ∀ (L : List α) (x : α) (i : Nat),
      listIndex L x = some i → i < L.length ∧ L.getD i d = x := by
  intro L
  induction L with
  | nil => intro x i h; cases h
  | cons a rest ih =>
      intro x i h
      by_cases hax : a = x
      · simp only [listIndex, if_pos hax] at h
        cases h
        exact ⟨Nat.succ_pos _, hax⟩
      · simp only [listIndex, if_neg hax, Option.map_eq_some'] at h
        obtain ⟨j, hj, rfl⟩ := h
        obtain ⟨hlt, hget⟩ := ih x j hj
        exact ⟨Nat.succ_lt_succ hlt, hget⟩

/-! A1 variant (`src/midealocal/devices/a1/__init__.py`). -/

/-- The A1 attribute set, in the declaration order of `DeviceAttributes` and
of the `attributes` dictionary passed to the constructor. -/
inductive A1Attr where
  | power | prompt_tone | child_lock | mode | fan_speed | swing
  | target_humidity | anion | tank | water_level_set | tank_full
  | current_humidity | current_temperature
deriving DecidableEq, Repr

/-- The A1 attributes in dictionary iteration order (`for status in
self._attributes`). -/
def a1AttrList : List A1Attr :=
  [A1Attr.power, A1Attr.prompt_tone, A1Attr.child_lock, A1Attr.mode,
   A1Attr.fan_speed, A1Attr.swing, A1Attr.target_humidity, A1Attr.anion,
   A1Attr.tank, A1Attr.water_level_set, A1Attr.tank_full,
   A1Attr.current_humidity, A1Attr.current_temperature]

/-- `MideaA1Device._modes`. -/
def a1Modes : List String :=
  ["Manual", "Continuous", "Auto", "Clothes-Dry", "Shoes-Dry"]

/-- `MideaA1Device._speeds`, as the (key, value) pairs of the dict in
insertion order. -/
def a1Speeds : List (Nat × String) :=
  [(1, "Lowest"), (40, "Low"), (60, "Medium"), (80, "High"),
   (102, "Auto"), (127, "Off")]

/-- `MideaA1Device._water_level_sets`. -/
def a1WaterLevelSets : List String := ["25", "50", "75", "100"]

/-- The A1 attribute dictionary: one `Value` per attribute name. -/
def A1State : Type := A1Attr → Value

/-- Dictionary write `self._attributes[a] = v`. -/
def a1Update (st : A1State) (a : A1Attr) (v : Value) : A1State :=
  fun b => if b = a then v else st b

/-- The `attributes` dictionary passed to the A1 constructor. -/
def a1InitialAttributes : A1State := fun a =>
  match a with
  | A1Attr.power => Value.vBool false
  | A1Attr.prompt_tone => Value.vBool true
  | A1Attr.child_lock => Value.vBool false
  | A1Attr.mode => Value.vNone
  | A1Attr.fan_speed => Value.vStr "Medium"
  | A1Attr.swing => Value.vBool false
  | A1Attr.target_humidity => Value.vInt 35
  | A1Attr.anion => Value.vBool false
  | A1Attr.tank => Value.vInt 0
  | A1Attr.water_level_set => Value.vInt 50
  | A1Attr.tank_full => Value.vNone
  | A1Attr.current_humidity => Value.vNone
  | A1Attr.current_temperature => Value.vNone

/-- The per-attribute decode transform of `MideaA1Device.process_message`
(lines 123-136): the value stored into `self._attributes[status]` for a raw
message field `v`.  Raw wire fields are nonnegative integers.  For `mode`,
`value <= len(_modes)` guards a Python subscript at `value - 1`; the
`IndexError` branch of `pyGetItem` is unreachable there (see
`a1ModeIndex_isSome`) and is mapped to the null sentinel only to keep the
function total. -/
def a1DecodeField (a : A1Attr) (v : Nat) : Value :=
  match a with
  | A1Attr.mode =>
      if v ≤ a1Modes.length then
        match pyGetItem a1Modes ((v : Int) - 1) with
        | some s => Value.vStr s
        | none => Value.vNone
      else Value.vNone
  | A1Attr.fan_speed =>
      match a1Speeds.find? (fun p => p.1 = v) with
      | some p => Value.vStr p.2
      | none => Value.vNone
  | A1Attr.water_level_set => Value.vStr (toString v)
  | _ => Value.vInt v

/-- For every raw mode value passing the `value <= len(_modes)` guard the
Python subscript `_modes[value - 1]` succeeds. -/
theorem a1ModeIndex_isSome (v : Nat) (h : v ≤ a1Modes.length) :
    (pyGetItem a1Modes ((v : Int) - 1)).isSome := by
  have h5 : v ≤ 5 := h
  interval_cases v <;> decide

/-- The report dictionary `new_status` of `process_message`, keyed by the
attribute whose name string indexes it. -/
def A1Report : Type := A1Attr → Option Value

/-- Dictionary write `new_status[str(a)] = v`. -/
def a1RepUpdate (rep : A1Report) (a : A1Attr) (v : Value) : A1Report :=
  fun b => if b = a then some v else rep b

/-- The empty `new_status = {}` dictionary. -/
def a1EmptyReport : A1Report := fun _ => none

/-- The derived tank-full computation of `process_message` (lines 139-140):
`water_level = int(self._attributes[water_level_set])` followed by
`tank >= water_level if bool(tank) else False`.  `none` models a raised
exception (unparseable water level, or ordering a non-numeric tank). -/
def tankFullCalculated (st : A1State) : Option Value :=
  (pyInt (st A1Attr.water_level_set)).bind (fun water_level =>
    if pyBool (st A1Attr.tank) then
      (pyGE (st A1Attr.tank) water_level).map Value.vBool
    else some (Value.vBool false))

/-- One iteration of the `for status in self._attributes` loop of
`MideaA1Device.process_message` for an attribute `a` the message exposes
with raw value `v`: store the decoded field, recompute the derived
`tank_full`, update it (and report it) when it differs from the stored one
or the stored one is `None`, then report the processed attribute at its
current value.  `none` models an exception escaping the loop body. -/
def a1ProcessOne (st : A1State) (rep : A1Report) (a : A1Attr) (v : Nat) :
    Option (A1State × A1Report) :=
  let st1 := a1Update st a (a1DecodeField a v)
  (tankFullCalculated st1).map (fun calcv =>
    if st1 A1Attr.tank_full = Value.vNone
        ∨ st1 A1Attr.tank_full ≠ calcv then
      (a1Update st1 A1Attr.tank_full calcv,
       a1RepUpdate (a1RepUpdate rep A1Attr.tank_full calcv) a
         (a1Update st1 A1Attr.tank_full calcv a))
    else (st1, a1RepUpdate rep a (st1 a)))

/-- The attribute loop of `process_message` over a list of attributes:
absent fields are skipped, present ones go through `a1ProcessOne`. -/
def a1ProcessList (msg : A1Attr → Option Nat) :
    List A1Attr → A1State → A1Report → Option (A1State × A1Report)
  | [], st, rep => some (st, rep)
  | a :: rest, st, rep =>
      match msg a with
      | none => a1ProcessList msg rest st rep
      | some v =>
          (a1ProcessOne st rep a v).bind
            (fun p => a1ProcessList msg rest p.1 p.2)

/-- The parsed inbound message object (`MessageA1Response`): a protocol
version tag and a partial map from attribute names to raw nonnegative wire
fields (`hasattr`/`getattr`). -/
structure A1Msg where
  protocol_version : Nat
  fields : A1Attr → Option Nat

/-- The state of a `MideaA1Device` that the translation layer touches: the
stored `_message_protocol_version` and the attribute dictionary. -/
structure A1Device where
  protocol_version : Nat
  attributes : A1State

/-- `MideaA1Device.process_message`: store the protocol version of the
inbound message (line 117), then run the attribute loop starting from an
empty report. -/
def a1ProcessMessage (d : A1Device) (m : A1Msg) :
    Option (A1Device × A1Report) :=
  (a1ProcessList m.fields a1AttrList d.attributes a1EmptyReport).map
    (fun p =>
      ({ protocol_version := m.protocol_version, attributes := p.1 }, p.2))

/-- The outbound `MessageQuery` of the A1 module, reduced to the fields the
translation layer sets. -/
structure MessageQueryA1 where
  protocol_version : Nat

/-- `MideaA1Device.build_query`. -/
def a1BuildQuery (d : A1Device) : List MessageQueryA1 :=
  [{ protocol_version := d.protocol_version }]

/-- The outbound `MessageSet` of the A1 module, reduced to the fields
`make_message_set` and `set_attribute` populate.  `extra` models Python
`setattr` of a name that is not a declared message field. -/
structure MessageSetA1 where
  protocol_version : Nat
  power : Value
  prompt_tone : Value
  child_lock : Value
  mode : Nat
  fan_speed : Nat
  target_humidity : Value
  swing : Value
  anion : Value
  water_level_set : Int
  extra : List (A1Attr × Value)
deriving DecidableEq, Repr

/-- The mode field expression of `make_message_set` (lines 166-171):
`_modes.index(mode) + 1` when the stored mode is a member of `_modes`,
else the fallback code `1`. -/
def a1ModeCode (v : Value) : Nat :=
  match v with
  | Value.vStr s =>
      match listIndex a1Modes s with
      | some i => i + 1
      | none => 1
  | _ => 1

/-- The fan-speed field expression of `make_message_set` (lines 172-180):
`40` when the stored fan speed is `None`, else
`list(_speeds.keys())[list(_speeds.values()).index(fan_speed)]`; `none`
models the `ValueError` raised by `.index` when the stored fan speed is
neither `None` nor a member of the value list. -/
def a1FanSpeedCode (v : Value) : Option Nat :=
  match v with
  | Value.vNone => some 40
  | Value.vStr s =>
      match listIndex (a1Speeds.map Prod.snd) s with
      | some i => (a1Speeds.map Prod.fst).get? i
      | none => none
  | _ => none

/-- `MideaA1Device.make_message_set`; `none` models a raised exception
(fan-speed `.index` failure or `int(...)` failure on the water level). -/
def makeMessageSet (d : A1Device) : Option MessageSetA1 :=
  match a1FanSpeedCode (d.attributes A1Attr.fan_speed) with
  | none => none
  | some fs =>
      match pyInt (d.attributes A1Attr.water_level_set) with
      | none => none
      | some wl =>
          some { protocol_version := d.protocol_version,
                 power := d.attributes A1Attr.power,
                 prompt_tone := d.attributes A1Attr.prompt_tone,
                 child_lock := d.attributes A1Attr.child_lock,
                 mode := a1ModeCode (d.attributes A1Attr.mode),
                 fan_speed := fs,
                 target_humidity := d.attributes A1Attr.target_humidity,
                 swing := d.attributes A1Attr.swing,
                 anion := d.attributes A1Attr.anion,
                 water_level_set := wl,
                 extra := [] }

/-- Python `setattr(message, str(attr), value)` for the generic branch of
`set_attribute`: names that are declared message fields overwrite them,
any other name becomes a plain object attribute (`extra`). -/
def msgSetField (m : MessageSetA1) (a : A1Attr) (v : Value) : MessageSetA1 :=
  match a with
  | A1Attr.power => { m with power := v }
  | A1Attr.prompt_tone => { m with prompt_tone := v }
  | A1Attr.child_lock => { m with child_lock := v }
  | A1Attr.swing => { m with swing := v }
  | A1Attr.target_humidity => { m with target_humidity := v }
  | A1Attr.anion => { m with anion := v }
  | a => { m with extra := m.extra ++ [(a, v)] }

/-- Modelled from the spec: the host callbacks that `set_attribute` invokes
live in the `MideaDevice` base class, which is not part of the translation
layer source; per the spec they are `publishLocalUpdate` (the base method
`update_all`, an immediate non-transmitted state echo) and `transmit` (the
base method `build_send`).  They are embedded as emitted effects. -/
inductive A1Effect where
  | update_all : List (String × Value) → A1Effect
  | build_send : MessageSetA1 → A1Effect
deriving DecidableEq, Repr

/-- `MideaA1Device.set_attribute` (lines 189-209): `prompt_tone` is stored
and echoed locally; every other attribute builds the full command message,
overrides the requested field when the requested value is a legal member of
the relevant domain, and transmits.  `none` models a raised exception
(propagated from `make_message_set`). -/
def a1SetAttribute (d : A1Device) (attr : A1Attr) (v : Value) :
    Option (A1Device × List A1Effect) :=
  if attr = A1Attr.prompt_tone then
    some ({ d with attributes := a1Update d.attributes A1Attr.prompt_tone v },
          [A1Effect.update_all [("prompt_tone", v)]])
  else
    match makeMessageSet d with
    | none => none
    | some message =>
        let message :=
          if attr = A1Attr.mode then
            match v with
            | Value.vStr s =>
                match listIndex a1Modes s with
                | some i => { message with mode := i + 1 }
                | none => message
            | _ => message
          else if attr = A1Attr.fan_speed then
            match v with
            | Value.vStr s =>
                match listIndex (a1Speeds.map Prod.snd) s with
                | some i =>
                    { message with
                      fan_speed := (a1Speeds.map Prod.fst).getD i 0 }
                | none => message
            | _ => message
          else if attr = A1Attr.water_level_set then
            match v with
            | Value.vStr s =>
                if s ∈ a1WaterLevelSets then
                  match strToInt s with
                  | some n => { message with water_level_set := n }
                  | none => message
                else message
            | _ => message
          else msgSetField message attr v
        some (d, [A1Effect.build_send message])

/-! B1 variant (`src/midealocal/devices/b1/__init__.py`). -/

/-- The B1 attribute set in declaration order. -/
inductive B1Attr where
  | door | status | time_remaining | current_temperature | tank_ejected
  | water_change_reminder | water_shortage
deriving DecidableEq, Repr

/-- The B1 attributes in dictionary iteration order. -/
def b1AttrList : List B1Attr :=
  [B1Attr.door, B1Attr.status, B1Attr.time_remaining,
   B1Attr.current_temperature, B1Attr.tank_ejected,
   B1Attr.water_change_reminder, B1Attr.water_shortage]

/-- `MideaB1Device._status`, as the (key, value) pairs of the dict in
insertion order. -/
def b1Status : List (Nat × String) :=
  [(1, "Standby"), (2, "Idle"), (3, "Working"), (4, "Finished"),
   (5, "Delay"), (6, "Paused")]

/-- The B1 attribute dictionary. -/
def B1State : Type := B1Attr → Value

/-- Dictionary write on the B1 attribute dictionary. -/
def b1Update (st : B1State) (a : B1Attr) (v : Value) : B1State :=
  fun b => if b = a then v else st b

/-- The B1 report dictionary. -/
def B1Report : Type := B1Attr → Option Value

/-- Dictionary write on the B1 report. -/
def b1RepUpdate (rep : B1Report) (a : B1Attr) (v : Value) : B1Report :=
  fun b => if b = a then some v else rep b

/-- The empty B1 report. -/
def b1EmptyReport : B1Report := fun _ => none

/-- The `attributes` dictionary passed to the B1 constructor. -/
def b1InitialAttributes : B1State := fun a =>
  match a with
  | B1Attr.door => Value.vBool false
  | B1Attr.status => Value.vNone
  | B1Attr.time_remaining => Value.vNone
  | B1Attr.current_temperature => Value.vNone
  | B1Attr.tank_ejected => Value.vBool false
  | B1Attr.water_change_reminder => Value.vBool false
  | B1Attr.water_shortage => Value.vBool false

/-- The per-attribute decode transform of `MideaB1Device.process_message`
(lines 87-95): sparse-code lookup for `status`, identity otherwise. -/
def b1DecodeField (a : B1Attr) (v : Nat) : Value :=
  match a with
  | B1Attr.status =>
      match b1Status.find? (fun p => p.1 = v) with
      | some p => Value.vStr p.2
      | none => Value.vNone
  | _ => Value.vInt v

/-- The attribute loop of `MideaB1Device.process_message`: absent fields are
skipped, present ones are decoded, stored and reported. -/
def b1ProcessList (msg : B1Attr → Option Nat) :
    List B1Attr → B1State → B1Report → B1State × B1Report
  | [], st, rep => (st, rep)
  | a :: rest, st, rep =>
      match msg a with
      | none => b1ProcessList msg rest st rep
      | some v =>
          b1ProcessList msg rest (b1Update st a (b1DecodeField a v))
            (b1RepUpdate rep a (b1DecodeField a v))

/-- The parsed inbound `MessageB1Response`. -/
structure B1Msg where
  protocol_version : Nat
  fields : B1Attr → Option Nat

/-- The state of a `MideaB1Device` the translation layer touches. -/
structure B1Device where
  protocol_version : Nat
  attributes : B1State

/-- `MideaB1Device.process_message` (lines 79-97): runs the attribute loop;
unlike A1 it never stores the protocol version of the inbound message. -/
def b1ProcessMessage (d : B1Device) (m : B1Msg) : B1Device × B1Report :=
  let p := b1ProcessList m.fields b1AttrList d.attributes b1EmptyReport
  ({ d with attributes := p.1 }, p.2)

/-- The outbound `MessageQuery` of the B1 module. -/
structure MessageQueryB1 where
  protocol_version : Nat

/-- `MideaB1Device.build_query`. -/
def b1BuildQuery (d : B1Device) : List MessageQueryB1 :=
  [{ protocol_version := d.protocol_version }]

/-! EC variant (`src/midealocal/devices/ec/__init__.py`). -/

/-- The EC attribute set in declaration order. -/
inductive ECAttr where
  | cooking | mode | time_remaining | keep_warm_time | top_temperature
  | bottom_temperature | progress | with_pressure
deriving DecidableEq, Repr

/-- The EC attributes in dictionary iteration order (the constructor order,
which differs slightly from the `DeviceAttributes` declaration order). -/
def ecAttrList : List ECAttr :=
  [ECAttr.cooking, ECAttr.mode, ECAttr.time_remaining,
   ECAttr.top_temperature, ECAttr.bottom_temperature,
   ECAttr.keep_warm_time, ECAttr.progress, ECAttr.with_pressure]

/-- `MideaECDevice._mode_list`: 94 named programs, 98 reserved `unknown`
slots, `clean`, 5 more reserved slots, `keep_warm` and `diy`. -/
def ecModeList : List String :=
  ["smart", "reserve", "cook_rice", "fast_cook_rice", "standard_cook_rice",
   "gruel", "cook_congee", "stew_soup", "stewing", "heat_rice", "make_cake",
   "yoghourt", "soup_rice", "coarse_rice", "five_ceeals_rice",
   "eight_treasures_rice", "crispy_rice", "shelled_rice",
   "eight_treasures_congee", "infant_congee", "older_rice", "rice_soup",
   "rice_paste", "egg_custard", "warm_milk", "hot_spring_egg",
   "millet_congee", "firewood_rice", "few_rice", "red_potato", "corn",
   "quick_freeze_bun", "steam_ribs", "steam_egg", "coarse_congee",
   "steep_rice", "appetizing_congee", "corn_congee", "sprout_rice",
   "luscious_rice", "luscious_boiled", "fast_rice", "fast_boil",
   "bean_rice_congee", "fast_congee", "baby_congee", "cook_soup",
   "congee_coup", "steam_corn", "steam_red_potato", "boil_congee",
   "delicious_steam", "boil_egg", "rice_wine", "fruit_vegetable_paste",
   "vegetable_porridge", "pork_porridge", "fragrant_rice", "assorte_rice",
   "steame_fish", "baby_rice", "essence_rice", "fragrant_dense_congee",
   "one_two_cook", "original_steame", "hot_fast_rice",
   "online_celebrity_rice", "sushi_rice", "stone_bowl_rice",
   "no_water_treat", "keep_fresh", "low_sugar_rice", "black_buckwheat_rice",
   "resveratrol_rice", "yellow_wheat_rice", "green_buckwheat_rice",
   "roughage_rice", "millet_mixed_rice", "iron_pan_rice", "olla_pan_rice",
   "vegetable_rice", "baby_side", "regimen_congee", "earthen_pot_congee",
   "regimen_soup", "pottery_jar_soup", "canton_soup", "nutrition_stew",
   "northeast_stew", "uncap_boil", "trichromatic_coarse_grain",
   "four_color_vegetables", "egg", "chop"]
  ++ List.replicate 98 "unknown" ++ ["clean"] ++ List.replicate 5 "unknown"
  ++ ["keep_warm", "diy"]

/-- `MideaECDevice._progress`. -/
def ecProgress : List String :=
  ["Idle", "Cooking", "Delay", "Keep-warm", "Lid-open", "Relieving",
   "Keep-pressure", "Relieving", "Cooking", "Relieving", "Lid-open"]

/-- The EC attribute dictionary. -/
def ECState : Type := ECAttr → Value

/-- Dictionary write on the EC attribute dictionary. -/
def ecUpdate (st : ECState) (a : ECAttr) (v : Value) : ECState :=
  fun b => if b = a then v else st b

/-- The EC report dictionary. -/
def ECReport : Type := ECAttr → Option Value

/-- Dictionary write on the EC report. -/
def ecRepUpdate (rep : ECReport) (a : ECAttr) (v : Value) : ECReport :=
  fun b => if b = a then some v else rep b

/-- The empty EC report. -/
def ecEmptyReport : ECReport := fun _ => none

/-- The per-attribute decode transform of `MideaECDevice.process_message`
(lines 196-209): zero-based list lookup for `progress` with the string
sentinel `Unknown`, large-catalog lookup for `mode` with the string
sentinel `Cloud`, identity otherwise. -/
def ecDecodeField (a : ECAttr) (v : Nat) : Value :=
  match a with
  | ECAttr.progress =>
      if v < ecProgress.length then Value.vStr (ecProgress.getD v "")
      else Value.vStr "Unknown"
  | ECAttr.mode =>
      if v < ecModeList.length then Value.vStr (ecModeList.getD v "")
      else Value.vStr "Cloud"
  | _ => Value.vInt v

/-- The attribute loop of `MideaECDevice.process_message`. -/
def ecProcessList (msg : ECAttr → Option Nat) :
    List ECAttr → ECState → ECReport → ECState × ECReport
  | [], st, rep => (st, rep)
  | a :: rest, st, rep =>
      match msg a with
      | none => ecProcessList msg rest st rep
      | some v =>
          ecProcessList msg rest (ecUpdate st a (ecDecodeField a v))
            (ecRepUpdate rep a (ecDecodeField a v))

/-- The parsed inbound `MessageECResponse`. -/
structure ECMsg where
  protocol_version : Nat
  fields : ECAttr → Option Nat

/-- The state of a `MideaECDevice` the translation layer touches. -/
structure ECDevice where
  protocol_version : Nat
  attributes : ECState

/-- `MideaECDevice.process_message` (lines 188-211): runs the attribute
loop; like B1 it never stores the protocol version of the inbound
message. -/
def ecProcessMessage (d : ECDevice) (m : ECMsg) : ECDevice × ECReport :=
  let p := ecProcessList m.fields ecAttrList d.attributes ecEmptyReport
  ({ d with attributes := p.1 }, p.2)

/-- The outbound `MessageQuery` of the EC module. -/
structure MessageQueryEC where
  protocol_version : Nat

/-- `MideaECDevice.build_query`. -/
def ecBuildQuery (d : ECDevice) : List MessageQueryEC :=
  [{ protocol_version := d.protocol_version }]

/-! Spec-modelled encoders for the variants without an encode path. -/

/-- Modelled from the spec: the B1 variant has no encoder under `src` (its
`set_attribute` body is empty), so "encoding L to its raw wire field" for
the status domain is the inverse of the status LookupTable required by the
round-trip property of the spec: the raw code of the first table pair whose
label is `L`. -/
def b1EncodeStatus (l : String) : Option Nat :=
  (b1Status.find? (fun p => p.2 = l)).map (fun p => p.1)

/-- Modelled from the spec: the EC variant has no encoder under `src`; the
inverse of the program catalog maps a label to its first index, mirroring
how the A1 encoder inverts its tables with `list.index`. -/
def ecEncodeMode (l : String) : Option Nat := listIndex ecModeList l

/-- Modelled from the spec: the inverse of the EC progress table maps a
label to its first index. -/
def ecEncodeProgress (l : String) : Option Nat := listIndex ecProgress l

/-- C10: decoding an inbound A1 message whose raw mode field is 0 passes the
1-based guard (0 is at most the table length) and stores the last label of
the 5-entry mode table, "Shoes-Dry", via Python index -1, rather than the
null sentinel: the decoded mode equals the final table entry. -/
theorem c10_mode_zero_wraps_to_last :
    a1DecodeField A1Attr.mode 0
        = Value.vStr (a1Modes.getD (a1Modes.length - 1) "")
    ∧ a1DecodeField A1Attr.mode 0 = Value.vStr "Shoes-Dry"
    ∧ a1DecodeField A1Attr.mode 0 ≠ Value.vNone := by
  refine ⟨by decide, by decide, by decide⟩

/-- C4 counterexample: raw mode code 0 does not select a position of the
1-based 5-entry mode table, yet A1 decode does not store the null sentinel
for it: it stores the label "Shoes-Dry". -/
theorem c4_counterexample_mode_zero :
    a1DecodeField A1Attr.mode 0 ≠ Value.vNone
    ∧ a1DecodeField A1Attr.mode 0 = Value.vStr "Shoes-Dry" := by
  refine ⟨by decide, by decide⟩

/-- C4 amended: for every raw mode code strictly greater than the table
length the A1 decode stores the null sentinel; raw mode code 3 decodes to
the 3rd label "Auto" and raw mode code 9 decodes to null; the remaining
out-of-position code 0 wraps to the final label "Shoes-Dry" instead of
null. -/
theorem c4_amended_mode_out_of_range :
    (∀ v : Nat, a1Modes.length < v →
        a1DecodeField A1Attr.mode v = Value.vNone)
    ∧ a1DecodeField A1Attr.mode 3 = Value.vStr "Auto"
    ∧ a1DecodeField A1Attr.mode 9 = Value.vNone
    ∧ a1DecodeField A1Attr.mode 0 = Value.vStr "Shoes-Dry" := by
  refine ⟨?_, by decide, by decide, by decide⟩
  intro v hv
  have h5 : a1Modes.length = 5 := rfl
  rw [h5] at hv
  simp only [a1DecodeField, h5]
  rw [if_neg (by omega)]

/-- C4 amended witness at raw code 9. -/
theorem c4_amended_mode_out_of_range_witness :
    a1Modes.length < 9 ∧ a1DecodeField A1Attr.mode 9 = Value.vNone :=
  ⟨by decide, c4_amended_mode_out_of_range.1 9 (by decide)⟩

/-- C5: EC large-catalog mode decode: a raw code below the catalog length
yields the catalog entry at that index (which may be the in-range reserved
label "unknown", as at index 94), any code at or beyond the catalog length
yields the distinct sentinel string "Cloud", which is never the in-range
"unknown" placeholder and never the null sentinel. -/
theorem c5_ec_mode_catalog :
    (∀ v : Nat, v < ecModeList.length →
        ecDecodeField ECAttr.mode v = Value.vStr (ecModeList.getD v ""))
    ∧ (∀ v : Nat, ecModeList.length ≤ v →
        ecDecodeField ECAttr.mode v = Value.vStr "Cloud")
    ∧ (94 < ecModeList.length
        ∧ ecDecodeField ECAttr.mode 94 = Value.vStr "unknown")
    ∧ (∀ v : Nat, ecModeList.length ≤ v →
        ecDecodeField ECAttr.mode v ≠ Value.vStr "unknown")
    ∧ (∀ v : Nat, ecDecodeField ECAttr.mode v ≠ Value.vNone) := by
  refine ⟨?_, ?_, ⟨by decide, by decide⟩, ?_, ?_⟩
  · intro v hv
    simp only [ecDecodeField]
    rw [if_pos hv]
  · intro v hv
    simp only [ecDecodeField]
    rw [if_neg (by omega)]
  · intro v hv
    simp only [ecDecodeField]
    rw [if_neg (by omega)]
    decide
  · intro v
    simp only [ecDecodeField]
    split <;> exact fun h => Value.noConfusion h

/-- C5 witness at the in-range code 0 and the out-of-range code 500. -/
theorem c5_ec_mode_catalog_witness :
    (0 < ecModeList.length
      ∧ ecDecodeField ECAttr.mode 0 = Value.vStr (ecModeList.getD 0 ""))
    ∧ (ecModeList.length ≤ 500
      ∧ ecDecodeField ECAttr.mode 500 = Value.vStr "Cloud") :=
  ⟨⟨by decide, c5_ec_mode_catalog.1 0 (by decide)⟩,
   ⟨by decide, c5_ec_mode_catalog.2.1 500 (by decide)⟩⟩

/-- C1: encode-then-decode round trip on every declared label domain: A1
mode labels (list index + 1, inverted by the 1-based mode decode of
`process_message`), A1 fan-speed labels (inverse of the speeds table,
inverted by the sparse fan-speed decode), A1 water-level labels (int-parse,
inverted by the stringifying decode), B1 status labels and EC mode and
progress labels (spec-modelled inverse tables, inverted by the respective
decodes). -/
theorem c1_encode_decode_round_trip :
    (∀ l ∈ a1Modes,
        a1DecodeField A1Attr.mode (a1ModeCode (Value.vStr l))
          = Value.vStr l)
    ∧ (∀ l ∈ a1Speeds.map Prod.snd,
        (a1FanSpeedCode (Value.vStr l)).map (a1DecodeField A1Attr.fan_speed)
          = some (Value.vStr l))
    ∧ (∀ l ∈ a1WaterLevelSets,
        (pyInt (Value.vStr l)).map
            (fun n => a1DecodeField A1Attr.water_level_set n.toNat)
          = some (Value.vStr l))
    ∧ (∀ l ∈ b1Status.map Prod.snd,
        (b1EncodeStatus l).map (b1DecodeField B1Attr.status)
          = some (Value.vStr l))
    ∧ (∀ l ∈ ecModeList,
        (ecEncodeMode l).map (ecDecodeField ECAttr.mode)
          = some (Value.vStr l))
    ∧ (∀ l ∈ ecProgress,
        (ecEncodeProgress l).map (ecDecodeField ECAttr.progress)
          = some (Value.vStr l)) := by
  refine ⟨by decide, by decide, by decide, by decide, by decide, by decide⟩

/-- C1 witness: the round trip at one concrete label of each domain. -/
theorem c1_encode_decode_round_trip_witness :
    a1DecodeField A1Attr.mode (a1ModeCode (Value.vStr "Shoes-Dry"))
        = Value.vStr "Shoes-Dry"
    ∧ (a1FanSpeedCode (Value.vStr "Off")).map
          (a1DecodeField A1Attr.fan_speed)
        = some (Value.vStr "Off")
    ∧ (pyInt (Value.vStr "75")).map
          (fun n => a1DecodeField A1Attr.water_level_set n.toNat)
        = some (Value.vStr "75")
    ∧ (b1EncodeStatus "Paused").map (b1DecodeField B1Attr.status)
        = some (Value.vStr "Paused")
    ∧ (ecEncodeMode "diy").map (ecDecodeField ECAttr.mode)
        = some (Value.vStr "diy")
    ∧ (ecEncodeProgress "Relieving").map (ecDecodeField ECAttr.progress)
        = some (Value.vStr "Relieving") :=
  ⟨c1_encode_decode_round_trip.1 "Shoes-Dry" (by decide),
   c1_encode_decode_round_trip.2.1 "Off" (by decide),
   c1_encode_decode_round_trip.2.2.1 "75" (by decide),
   c1_encode_decode_round_trip.2.2.2.1 "Paused" (by decide),
   c1_encode_decode_round_trip.2.2.2.2.1 "diy" (by decide),
   c1_encode_decode_round_trip.2.2.2.2.2 "Relieving" (by decide)⟩

theorem listIndex_eq_none_of_not_mem {α : Type} [DecidableEq α]
    {L : List α} {x : α} (h : x ∉ L) : listIndex L x = none := by
  have := (listIndex_isSome_iff_mem L x).not.mpr h
  simpa [Option.not_isSome_iff_eq_none] using this

theorem a1ModeCode_of_not_member {v : Value}
    (h : valueInStrList v a1Modes = false) : a1ModeCode v = 1 := by
  cases v with
  | vStr s =>
      have hmem : s ∉ a1Modes := by simpa [valueInStrList] using h
      simp [a1ModeCode, listIndex_eq_none_of_not_mem hmem]
  | vNone => simp [a1ModeCode]
  | vBool b => simp [a1ModeCode]
  | vInt n => simp [a1ModeCode]

/-- The A1 device right after construction. -/
def a1DefaultDevice : A1Device :=
  { protocol_version := 3, attributes := a1InitialAttributes }

/-- The message `make_message_set` builds from the constructed state. -/
def a1DefaultMessage : MessageSetA1 :=
  { protocol_version := 3, power := Value.vBool false,
    prompt_tone := Value.vBool true, child_lock := Value.vBool false,
    mode := 1, fan_speed := 60, target_humidity := Value.vInt 35,
    swing := Value.vBool false, anion := Value.vBool false,
    water_level_set := 50, extra := [] }

/-- A device whose stored fan speed is the label "Turbo", which is neither
`None` nor a member of the speeds table. -/
def a1TurboDevice : A1Device :=
  { protocol_version := 3,
    attributes :=
      a1Update a1InitialAttributes A1Attr.fan_speed (Value.vStr "Turbo") }

/-- C3 counterexample: with the stored fan-speed label "Turbo" (not a
member of the speeds table and not unset) `make_message_set` does not
encode the fallback code 40: `list.index` raises `ValueError` (the `none`
result), so encoding a full command does throw for this stored state
value. -/
theorem c3_counterexample_turbo_fan : makeMessageSet a1TurboDevice = none :=
  by decide

/-- C3 amended: when the stored mode label is not a member of the mode
table the encoded mode field is the fallback raw code 1, and when the
stored fan speed is unset (`None`) the encoded fan-speed field is the
default raw code 40; encoding succeeds whenever the stored fan speed is
`None` or a member of the speeds table and the stored water level parses as
an integer — but a stored fan-speed label outside the table raises instead
of falling back. -/
theorem c3_amended_encode_fallback :
    (∀ (d : A1Device) (m : MessageSetA1), makeMessageSet d = some m →
        (valueInStrList (d.attributes A1Attr.mode) a1Modes = false →
            m.mode = 1)
        ∧ (d.attributes A1Attr.fan_speed = Value.vNone → m.fan_speed = 40))
    ∧ (∀ d : A1Device,
        (a1FanSpeedCode (d.attributes A1Attr.fan_speed)).isSome →
        (pyInt (d.attributes A1Attr.water_level_set)).isSome →
        ∃ m, makeMessageSet d = some m) := by
  constructor
  · intro d m hm
    cases hfs : a1FanSpeedCode (d.attributes A1Attr.fan_speed) with
    | none => simp [makeMessageSet, hfs] at hm
    | some fs =>
        cases hwl : pyInt (d.attributes A1Attr.water_level_set) with
        | none => simp [makeMessageSet, hfs, hwl] at hm
        | some wl =>
            simp only [makeMessageSet, hfs, hwl, Option.some_inj] at hm
            subst hm
            constructor
            · intro hmode
              exact a1ModeCode_of_not_member hmode
            · intro hfan
              rw [hfan] at hfs
              simpa [a1FanSpeedCode] using hfs.symm
  · intro d h1 h2
    cases hfs : a1FanSpeedCode (d.attributes A1Attr.fan_speed) with
    | none => rw [hfs] at h1; cases h1
    | some fs =>
        cases hwl : pyInt (d.attributes A1Attr.water_level_set) with
        | none => rw [hwl] at h2; cases h2
        | some wl =>
            refine ⟨?_, ?_⟩
            · exact { protocol_version := d.protocol_version,
                      power := d.attributes A1Attr.power,
                      prompt_tone := d.attributes A1Attr.prompt_tone,
                      child_lock := d.attributes A1Attr.child_lock,
                      mode := a1ModeCode (d.attributes A1Attr.mode),
                      fan_speed := fs,
                      target_humidity := d.attributes A1Attr.target_humidity,
                      swing := d.attributes A1Attr.swing,
                      anion := d.attributes A1Attr.anion,
                      water_level_set := wl, extra := [] }
            · simp [makeMessageSet, hfs, hwl]

/-- C3 amended witness: the constructed device encodes with mode fallback 1,
and a device with unset fan speed encodes successfully. -/
theorem c3_amended_encode_fallback_witness :
    (makeMessageSet a1DefaultDevice = some a1DefaultMessage
      ∧ a1DefaultMessage.mode = 1)
    ∧ ∃ m, makeMessageSet
        { protocol_version := 3,
          attributes :=
            a1Update a1InitialAttributes A1Attr.fan_speed Value.vNone }
        = some m :=
  ⟨⟨by decide,
    (c3_amended_encode_fallback.1 a1DefaultDevice a1DefaultMessage
        (by decide)).1 (by decide)⟩,
   c3_amended_encode_fallback.2 _ (by decide) (by decide)⟩

/-- C6: setting the locally-acknowledged attribute `prompt_tone` stores the
value and immediately publishes it to the application, with no outbound
message built or transmitted; setting any other attribute leaves the state
untouched and transmits exactly one full command message. -/
theorem c6_prompt_tone_local_echo :
    (∀ (d : A1Device) (v : Value),
        a1SetAttribute d A1Attr.prompt_tone v =
          some ({ d with attributes :=
                    a1Update d.attributes A1Attr.prompt_tone v },
                [A1Effect.update_all [("prompt_tone", v)]]))
    ∧ (∀ (d d2 : A1Device) (attr : A1Attr) (v : Value)
          (effs : List A1Effect),
        attr ≠ A1Attr.prompt_tone →
        a1SetAttribute d attr v = some (d2, effs) →
        d2 = d ∧ ∃ m, effs = [A1Effect.build_send m]) := by
  constructor
  · intro d v
    simp [a1SetAttribute]
  · intro d d2 attr v effs hne h
    simp only [a1SetAttribute, if_neg hne] at h
    cases hm : makeMessageSet d with
    | none => rw [hm] at h; cases h
    | some message =>
        rw [hm] at h
        simp only [Option.some_inj, Prod.mk.injEq] at h
        obtain ⟨hd, he⟩ := h
        exact ⟨hd.symm, _, he.symm⟩

/-- C6 witness: setting `power` on the constructed device keeps the device
state and transmits one message. -/
theorem c6_prompt_tone_local_echo_witness :
    a1DefaultDevice = a1DefaultDevice
    ∧ ∃ m, [A1Effect.build_send
              (msgSetField a1DefaultMessage A1Attr.power (Value.vBool true))]
          = [A1Effect.build_send m] :=
  c6_prompt_tone_local_echo.2 a1DefaultDevice a1DefaultDevice A1Attr.power
    (Value.vBool true)
    [A1Effect.build_send
      (msgSetField a1DefaultMessage A1Attr.power (Value.vBool true))]
    (by decide) rfl

/-- C7: a `set_attribute` request for an enumerated attribute (`mode`,
`fan_speed`, `water_level_set`) with a value outside the declared domain is
silently ignored: the transmitted message is exactly the one
`make_message_set` derives from the unchanged state. -/
theorem c7_invalid_enum_set_noop :
    ∀ (d : A1Device) (v : Value) (m : MessageSetA1),
      makeMessageSet d = some m →
      (valueInStrList v a1Modes = false →
          a1SetAttribute d A1Attr.mode v
            = some (d, [A1Effect.build_send m]))
      ∧ (valueInStrList v (a1Speeds.map Prod.snd) = false →
          a1SetAttribute d A1Attr.fan_speed v
            = some (d, [A1Effect.build_send m]))
      ∧ (valueInStrList v a1WaterLevelSets = false →
          a1SetAttribute d A1Attr.water_level_set v
            = some (d, [A1Effect.build_send m])) := by
  intro d v m hm
  refine ⟨?_, ?_, ?_⟩ <;> intro hv
  · cases v with
    | vStr s =>
        have hmem : s ∉ a1Modes := by simpa [valueInStrList] using hv
        simp [a1SetAttribute, hm, listIndex_eq_none_of_not_mem hmem]
    | vNone => simp [a1SetAttribute, hm]
    | vBool b => simp [a1SetAttribute, hm]
    | vInt n => simp [a1SetAttribute, hm]
  · cases v with
    | vStr s =>
        have hmem : s ∉ a1Speeds.map Prod.snd := by
          simpa [valueInStrList] using hv
        simp [a1SetAttribute, hm, listIndex_eq_none_of_not_mem hmem]
    | vNone => simp [a1SetAttribute, hm]
    | vBool b => simp [a1SetAttribute, hm]
    | vInt n => simp [a1SetAttribute, hm]
  · cases v with
    | vStr s =>
        have hmem : s ∉ a1WaterLevelSets := by
          simpa [valueInStrList] using hv
        simp [a1SetAttribute, hm, hmem]
    | vNone => simp [a1SetAttribute, hm]
    | vBool b => simp [a1SetAttribute, hm]
    | vInt n => simp [a1SetAttribute, hm]

/-- C7 witness: requesting the fan-speed label "Turbo" (not in the table)
on the constructed device transmits exactly the current-state encoding. -/
theorem c7_invalid_enum_set_noop_witness :
    a1SetAttribute a1DefaultDevice A1Attr.fan_speed (Value.vStr "Turbo")
      = some (a1DefaultDevice, [A1Effect.build_send a1DefaultMessage]) :=
  (c7_invalid_enum_set_noop a1DefaultDevice (Value.vStr "Turbo")
      a1DefaultMessage (by decide)).2.1 (by decide)

theorem a1Update_same (st : A1State) (a : A1Attr) (v : Value) :
    a1Update st a v a = v := by simp [a1Update]

theorem a1Update_other (st : A1State) (a : A1Attr) (v : Value) (b : A1Attr)
    (h : b ≠ a) : a1Update st a v b = st b := by simp [a1Update, h]

theorem a1RepUpdate_same (rep : A1Report) (a : A1Attr) (v : Value) :
    a1RepUpdate rep a v a = some v := by simp [a1RepUpdate]

theorem a1RepUpdate_other (rep : A1Report) (a : A1Attr) (v : Value)
    (b : A1Attr) (h : b ≠ a) : a1RepUpdate rep a v b = rep b := by
  simp [a1RepUpdate, h]

theorem tankFullCalculated_interp {st2 : A1State} {calcv : Value}
    (hc : tankFullCalculated st2 = some calcv)
    (htf : st2 A1Attr.tank_full = calcv) :
    ∃ w : Int, pyInt (st2 A1Attr.water_level_set) = some w ∧
      ((pyBool (st2 A1Attr.tank) = false ∧
          st2 A1Attr.tank_full = Value.vBool false)
       ∨ (pyBool (st2 A1Attr.tank) = true ∧ ∃ b : Bool,
            pyGE (st2 A1Attr.tank) w = some b ∧
            st2 A1Attr.tank_full = Value.vBool b)) := by
  simp only [tankFullCalculated, Option.bind_eq_some] at hc
  obtain ⟨w, hw, hrest⟩ := hc
  refine ⟨w, hw, ?_⟩
  by_cases htank : pyBool (st2 A1Attr.tank) = true
  · rw [if_pos htank, Option.map_eq_some'] at hrest
    obtain ⟨b, hge, hb⟩ := hrest
    exact Or.inr ⟨htank, b, hge, by rw [htf, ← hb]⟩
  · rw [if_neg htank] at hrest
    refine Or.inl ⟨by simpa using htank, ?_⟩
    rw [htf, ← Option.some_inj.mp hrest]

theorem tankFullCalculated_congr {st st2 : A1State}
    (hw : st2 A1Attr.water_level_set = st A1Attr.water_level_set)
    (ht : st2 A1Attr.tank = st A1Attr.tank) :
    tankFullCalculated st2 = tankFullCalculated st := by
  simp only [tankFullCalculated, hw, ht]

/-- C2: after each processed attribute of an A1 decode pass, whatever the
processed attribute was, the stored `tank_full` equals the derived value
(tank at least the configured water level when the tank value is truthy,
false otherwise); and whenever the freshly computed value differs from the
stored one (or the stored one is `None`), `tank_full` is updated and added
to the report under its own name. -/
theorem c2_tank_full_recompute :
    ∀ (st : A1State) (rep : A1Report) (a : A1Attr) (v : Nat)
      (st2 : A1State) (rep2 : A1Report),
      a1ProcessOne st rep a v = some (st2, rep2) →
      (∃ w : Int, pyInt (st2 A1Attr.water_level_set) = some w ∧
        ((pyBool (st2 A1Attr.tank) = false ∧
            st2 A1Attr.tank_full = Value.vBool false)
         ∨ (pyBool (st2 A1Attr.tank) = true ∧ ∃ b : Bool,
              pyGE (st2 A1Attr.tank) w = some b ∧
              st2 A1Attr.tank_full = Value.vBool b)))
      ∧ (∀ calcv0 : Value,
          tankFullCalculated (a1Update st a (a1DecodeField a v))
              = some calcv0 →
          ((a1Update st a (a1DecodeField a v)) A1Attr.tank_full = Value.vNone
            ∨ (a1Update st a (a1DecodeField a v)) A1Attr.tank_full
                ≠ calcv0) →
          st2 A1Attr.tank_full = calcv0 ∧
          rep2 A1Attr.tank_full = some calcv0) := by
  intro st rep a v st2 rep2 h
  simp only [a1ProcessOne, Option.map_eq_some'] at h
  set st1 := a1Update st a (a1DecodeField a v) with hst1
  obtain ⟨calcv, hc, hif⟩ := h
  by_cases hcond :
      st1 A1Attr.tank_full = Value.vNone ∨ st1 A1Attr.tank_full ≠ calcv
  · rw [if_pos hcond, Prod.mk.injEq] at hif
    obtain ⟨hs, hr⟩ := hif
    have hst2tf : st2 A1Attr.tank_full = calcv := by
      rw [← hs]; exact a1Update_same ..
    have hw2 : st2 A1Attr.water_level_set = st1 A1Attr.water_level_set := by
      rw [← hs]; exact a1Update_other _ _ _ _ (by decide)
    have ht2 : st2 A1Attr.tank = st1 A1Attr.tank := by
      rw [← hs]; exact a1Update_other _ _ _ _ (by decide)
    have hc2 : tankFullCalculated st2 = some calcv := by
      rw [tankFullCalculated_congr hw2 ht2]; exact hc
    refine ⟨tankFullCalculated_interp hc2 hst2tf, ?_⟩
    intro calcv0 hc0 _
    have hcv : calcv0 = calcv := by
      rw [hc0] at hc; exact Option.some_inj.mp hc
    subst hcv
    refine ⟨hst2tf, ?_⟩
    rw [← hr]
    by_cases hatf : A1Attr.tank_full = a
    · rw [hatf, a1RepUpdate_same, ← hatf, a1Update_same]
    · rw [a1RepUpdate_other _ _ _ _ hatf, a1RepUpdate_same]
  · rw [if_neg hcond, Prod.mk.injEq] at hif
    obtain ⟨hs, hr⟩ := hif
    push_neg at hcond
    have hst2tf : st2 A1Attr.tank_full = calcv := by
      rw [← hs]; exact hcond.2
    have hc2 : tankFullCalculated st2 = some calcv := by rw [← hs]; exact hc
    refine ⟨tankFullCalculated_interp hc2 hst2tf, ?_⟩
    intro calcv0 hc0 hdiff
    have hcv : calcv0 = calcv := by
      rw [hc0] at hc; exact Option.some_inj.mp hc
    subst hcv
    exact absurd hdiff (by push_neg; exact hcond)

/-- The state after the constructed device processes a tank reading of 60. -/
def c2WitnessState : A1State :=
  a1Update (a1Update a1InitialAttributes A1Attr.tank (Value.vInt 60))
    A1Attr.tank_full (Value.vBool true)

/-- The report after the constructed device processes a tank reading of
60. -/
def c2WitnessReport : A1Report :=
  a1RepUpdate
    (a1RepUpdate a1EmptyReport A1Attr.tank_full (Value.vBool true))
    A1Attr.tank (Value.vInt 60)

/-- C2 witness: processing the tank attribute with raw value 60 on the
constructed state (water level 50) yields a state satisfying the derived
invariant. -/
theorem c2_tank_full_recompute_witness :
    ∃ w : Int, pyInt (c2WitnessState A1Attr.water_level_set) = some w ∧
      ((pyBool (c2WitnessState A1Attr.tank) = false ∧
          c2WitnessState A1Attr.tank_full = Value.vBool false)
       ∨ (pyBool (c2WitnessState A1Attr.tank) = true ∧ ∃ b : Bool,
            pyGE (c2WitnessState A1Attr.tank) w = some b ∧
            c2WitnessState A1Attr.tank_full = Value.vBool b)) :=
  (c2_tank_full_recompute a1InitialAttributes a1EmptyReport A1Attr.tank 60
      c2WitnessState c2WitnessReport rfl).1

theorem makeMessageSet_protocol_version :
    ∀ (d : A1Device) (s : MessageSetA1), makeMessageSet d = some s →
      s.protocol_version = d.protocol_version := by
  intro d s h
  cases hfs : a1FanSpeedCode (d.attributes A1Attr.fan_speed) with
  | none => simp [makeMessageSet, hfs] at h
  | some fs =>
      cases hwl : pyInt (d.attributes A1Attr.water_level_set) with
      | none => simp [makeMessageSet, hfs, hwl] at h
      | some wl =>
          simp only [makeMessageSet, hfs, hwl, Option.some_inj] at h
          subst h
          rfl

/-- C9 counterexample: a B1 device whose stored protocol version is 2
receives an inbound message tagged with protocol version 3 (and exposing
the door field); the next outbound query still carries version 2, not the
inbound tag 3 — B1 decode never stores the inbound protocol version. -/
theorem c9_counterexample_b1_version :
    ({ protocol_version := 3,
       fields := fun a => if a = B1Attr.door then some 1 else none } :
        B1Msg).protocol_version = 3
    ∧ (b1BuildQuery
          (b1ProcessMessage
            { protocol_version := 2, attributes := b1InitialAttributes }
            { protocol_version := 3,
              fields := fun a =>
                if a = B1Attr.door then some 1 else none }).1).map
          MessageQueryB1.protocol_version = [2]
    ∧ (2 : Nat) ≠ 3 := by
  exact ⟨rfl, rfl, by decide⟩

/-- C9 amended: the A1 variant stores the protocol-version tag of every
decoded inbound message and every subsequently built outbound message
(query or full command) carries it unchanged; the B1 and EC variants ignore
the inbound tag — their outbound builds keep whatever protocol version the
device already had. -/
theorem c9_amended_protocol_version :
    (∀ (d d2 : A1Device) (m : A1Msg) (rep : A1Report),
        a1ProcessMessage d m = some (d2, rep) →
        d2.protocol_version = m.protocol_version
        ∧ (a1BuildQuery d2).map MessageQueryA1.protocol_version
            = [m.protocol_version]
        ∧ (∀ s, makeMessageSet d2 = some s →
            s.protocol_version = m.protocol_version))
    ∧ (∀ (d : B1Device) (m : B1Msg),
        (b1ProcessMessage d m).1.protocol_version = d.protocol_version
        ∧ (b1BuildQuery (b1ProcessMessage d m).1).map
            MessageQueryB1.protocol_version = [d.protocol_version])
    ∧ (∀ (d : ECDevice) (m : ECMsg),
        (ecProcessMessage d m).1.protocol_version = d.protocol_version
        ∧ (ecBuildQuery (ecProcessMessage d m).1).map
            MessageQueryEC.protocol_version = [d.protocol_version]) := by
  refine ⟨?_, fun d m => ⟨rfl, rfl⟩, fun d m => ⟨rfl, rfl⟩⟩
  intro d d2 m rep h
  simp only [a1ProcessMessage, Option.map_eq_some'] at h
  obtain ⟨p, hp, heq⟩ := h
  rw [Prod.mk.injEq] at heq
  obtain ⟨hd, hrep⟩ := heq
  subst hd
  refine ⟨rfl, rfl, ?_⟩
  intro s hs
  rw [makeMessageSet_protocol_version _ _ hs]

/-- C9 amended witness: an A1 device with stored version 3 decodes an
(empty-fields) message tagged 7; the resulting device version, query and
command all carry 7. -/
theorem c9_amended_protocol_version_witness :
    ({ protocol_version := 7, attributes := a1InitialAttributes } :
        A1Device).protocol_version
      = ({ protocol_version := 7, fields := fun _ => none } :
          A1Msg).protocol_version
    ∧ (a1BuildQuery
          { protocol_version := 7, attributes := a1InitialAttributes }).map
        MessageQueryA1.protocol_version
      = [({ protocol_version := 7, fields := fun _ => none } :
            A1Msg).protocol_version]
    ∧ ({ a1DefaultMessage with protocol_version := 7 } :
          MessageSetA1).protocol_version
        = ({ protocol_version := 7, fields := fun _ => none } :
            A1Msg).protocol_version :=
  have h := c9_amended_protocol_version.1 a1DefaultDevice
    { protocol_version := 7, attributes := a1InitialAttributes }
    { protocol_version := 7, fields := fun _ => none } a1EmptyReport rfl
  ⟨h.1, h.2.1, h.2.2 { a1DefaultMessage with protocol_version := 7 }
    (by decide)⟩

theorem a1ProcessOne_frame {st : A1State} {rep : A1Report} {b : A1Attr}
    {v : Nat} {st2 : A1State} {rep2 : A1Report}
    (h : a1ProcessOne st rep b v = some (st2, rep2)) (a : A1Attr)
    (hab : a ≠ b) (hatf : a ≠ A1Attr.tank_full) :
    st2 a = st a ∧ rep2 a = rep a := by
  simp only [a1ProcessOne, Option.map_eq_some'] at h
  obtain ⟨calcv, hc, hif⟩ := h
  by_cases hcond : a1Update st b (a1DecodeField b v) A1Attr.tank_full
        = Value.vNone
      ∨ a1Update st b (a1DecodeField b v) A1Attr.tank_full ≠ calcv
  · rw [if_pos hcond, Prod.mk.injEq] at hif
    obtain ⟨hs, hr⟩ := hif
    constructor
    · rw [← hs, a1Update_other _ _ _ _ hatf, a1Update_other _ _ _ _ hab]
    · rw [← hr, a1RepUpdate_other _ _ _ _ hab,
        a1RepUpdate_other _ _ _ _ hatf]
  · rw [if_neg hcond, Prod.mk.injEq] at hif
    obtain ⟨hs, hr⟩ := hif
    constructor
    · rw [← hs, a1Update_other _ _ _ _ hab]
    · rw [← hr, a1RepUpdate_other _ _ _ _ hab]

theorem a1ProcessOne_reports {st : A1State} {rep : A1Report} {b : A1Attr}
    {v : Nat} {st2 : A1State} {rep2 : A1Report}
    (h : a1ProcessOne st rep b v = some (st2, rep2)) :
    rep2 b = some (st2 b) := by
  simp only [a1ProcessOne, Option.map_eq_some'] at h
  obtain ⟨calcv, hc, hif⟩ := h
  by_cases hcond : a1Update st b (a1DecodeField b v) A1Attr.tank_full
        = Value.vNone
      ∨ a1Update st b (a1DecodeField b v) A1Attr.tank_full ≠ calcv
  · rw [if_pos hcond, Prod.mk.injEq] at hif
    obtain ⟨hs, hr⟩ := hif
    rw [← hr, ← hs, a1RepUpdate_same]
  · rw [if_neg hcond, Prod.mk.injEq] at hif
    obtain ⟨hs, hr⟩ := hif
    rw [← hr, ← hs, a1RepUpdate_same]

theorem a1ProcessOne_inv {st : A1State} {rep : A1Report} {b : A1Attr}
    {v : Nat} {st2 : A1State} {rep2 : A1Report}
    (h : a1ProcessOne st rep b v = some (st2, rep2)) (a : A1Attr)
    (hInv : rep a = some (st a)) : rep2 a = some (st2 a) := by
  by_cases hab : a = b
  · subst hab; exact a1ProcessOne_reports h
  · simp only [a1ProcessOne, Option.map_eq_some'] at h
    obtain ⟨calcv, hc, hif⟩ := h
    by_cases hcond : a1Update st b (a1DecodeField b v) A1Attr.tank_full
          = Value.vNone
        ∨ a1Update st b (a1DecodeField b v) A1Attr.tank_full ≠ calcv
    · rw [if_pos hcond, Prod.mk.injEq] at hif
      obtain ⟨hs, hr⟩ := hif
      by_cases hatf : a = A1Attr.tank_full
      · subst hatf
        rw [← hr, ← hs, a1RepUpdate_other _ _ _ _ hab, a1RepUpdate_same,
          a1Update_same]
      · rw [← hr, ← hs, a1RepUpdate_other _ _ _ _ hab,
          a1RepUpdate_other _ _ _ _ hatf, a1Update_other _ _ _ _ hatf,
          a1Update_other _ _ _ _ hab]
        exact hInv
    · rw [if_neg hcond, Prod.mk.injEq] at hif
      obtain ⟨hs, hr⟩ := hif
      rw [← hr, ← hs, a1RepUpdate_other _ _ _ _ hab,
        a1Update_other _ _ _ _ hab]
      exact hInv

theorem a1ProcessOne_tank_full {st : A1State} {rep : A1Report} {b : A1Attr}
    {v : Nat} {st2 : A1State} {rep2 : A1Report}
    (h : a1ProcessOne st rep b v = some (st2, rep2)) :
    (st2 A1Attr.tank_full = st A1Attr.tank_full
      ∧ rep2 A1Attr.tank_full = rep A1Attr.tank_full)
    ∨ (rep2 A1Attr.tank_full).isSome := by
  by_cases hbtf : b = A1Attr.tank_full
  · subst hbtf
    right
    rw [a1ProcessOne_reports h]
    rfl
  · simp only [a1ProcessOne, Option.map_eq_some'] at h
    obtain ⟨calcv, hc, hif⟩ := h
    by_cases hcond : a1Update st b (a1DecodeField b v) A1Attr.tank_full
          = Value.vNone
        ∨ a1Update st b (a1DecodeField b v) A1Attr.tank_full ≠ calcv
    · rw [if_pos hcond, Prod.mk.injEq] at hif
      obtain ⟨hs, hr⟩ := hif
      right
      rw [← hr, a1RepUpdate_other _ _ _ _ (fun hh => hbtf hh.symm),
        a1RepUpdate_same]
      rfl
    · rw [if_neg hcond, Prod.mk.injEq] at hif
      obtain ⟨hs, hr⟩ := hif
      left
      constructor
      · rw [← hs, a1Update_other _ _ _ _ (fun hh => hbtf hh.symm)]
      · rw [← hr, a1RepUpdate_other _ _ _ _ (fun hh => hbtf hh.symm)]

theorem a1ProcessOne_mono {st : A1State} {rep : A1Report} {b : A1Attr}
    {v : Nat} {st2 : A1State} {rep2 : A1Report}
    (h : a1ProcessOne st rep b v = some (st2, rep2)) (a : A1Attr)
    (hSome : (rep a).isSome) : (rep2 a).isSome := by
  by_cases hab : a = b
  · subst hab; rw [a1ProcessOne_reports h]; rfl
  · simp only [a1ProcessOne, Option.map_eq_some'] at h
    obtain ⟨calcv, hc, hif⟩ := h
    by_cases hcond : a1Update st b (a1DecodeField b v) A1Attr.tank_full
          = Value.vNone
        ∨ a1Update st b (a1DecodeField b v) A1Attr.tank_full ≠ calcv
    · rw [if_pos hcond, Prod.mk.injEq] at hif
      obtain ⟨hs, hr⟩ := hif
      by_cases hatf : a = A1Attr.tank_full
      · subst hatf
        rw [← hr, a1RepUpdate_other _ _ _ _ hab, a1RepUpdate_same]
        rfl
      · rw [← hr, a1RepUpdate_other _ _ _ _ hab,
          a1RepUpdate_other _ _ _ _ hatf]
        exact hSome
    · rw [if_neg hcond, Prod.mk.injEq] at hif
      obtain ⟨hs, hr⟩ := hif
      rw [← hr, a1RepUpdate_other _ _ _ _ hab]
      exact hSome

theorem a1ProcessList_absent {msg : A1Attr → Option Nat} {a : A1Attr}
    (ha : msg a = none) (hatf : a ≠ A1Attr.tank_full) :
    ∀ (L : List A1Attr) (st : A1State) (rep : A1Report)
      (st2 : A1State) (rep2 : A1Report),
      a1ProcessList msg L st rep = some (st2, rep2) →
      st2 a = st a ∧ rep2 a = rep a := by
  intro L
  induction L with
  | nil =>
      intro st rep st2 rep2 h
      simp only [a1ProcessList, Option.some_inj, Prod.mk.injEq] at h
      rw [← h.1, ← h.2]
      exact ⟨rfl, rfl⟩
  | cons c rest ih =>
      intro st rep st2 rep2 h
      cases hm : msg c with
      | none =>
          rw [a1ProcessList, hm] at h
          exact ih st rep st2 rep2 h
      | some v =>
          rw [a1ProcessList, hm, Option.bind_eq_some] at h
          obtain ⟨p, hone, hrest⟩ := h
          have hac : a ≠ c := by
            intro hh; rw [hh, hm] at ha; cases ha
          obtain ⟨hs1, hr1⟩ := a1ProcessOne_frame hone a hac hatf
          obtain ⟨hs2, hr2⟩ := ih p.1 p.2 st2 rep2 hrest
          exact ⟨hs2.trans hs1, hr2.trans hr1⟩

theorem a1ProcessList_inv {msg : A1Attr → Option Nat} {a : A1Attr} :
    ∀ (L : List A1Attr) (st : A1State) (rep : A1Report)
      (st2 : A1State) (rep2 : A1Report),
      a1ProcessList msg L st rep = some (st2, rep2) →
      rep a = some (st a) → rep2 a = some (st2 a) := by
  intro L
  induction L with
  | nil =>
      intro st rep st2 rep2 h hInv
      simp only [a1ProcessList, Option.some_inj, Prod.mk.injEq] at h
      rw [← h.1, ← h.2]
      exact hInv
  | cons c rest ih =>
      intro st rep st2 rep2 h hInv
      cases hm : msg c with
      | none =>
          rw [a1ProcessList, hm] at h
          exact ih st rep st2 rep2 h hInv
      | some v =>
          rw [a1ProcessList, hm, Option.bind_eq_some] at h
          obtain ⟨p, hone, hrest⟩ := h
          exact ih p.1 p.2 st2 rep2 hrest (a1ProcessOne_inv hone a hInv)

theorem a1ProcessList_present {msg : A1Attr → Option Nat} {a : A1Attr}
    {v : Nat} (ha : msg a = some v) :
    ∀ (L : List A1Attr) (st : A1State) (rep : A1Report)
      (st2 : A1State) (rep2 : A1Report),
      a ∈ L → a1ProcessList msg L st rep = some (st2, rep2) →
      rep2 a = some (st2 a) := by
  intro L
  induction L with
  | nil => intro st rep st2 rep2 hmem; cases hmem
  | cons c rest ih =>
      intro st rep st2 rep2 hmem h
      by_cases hac : a = c
      · subst hac
        rw [a1ProcessList, ha, Option.bind_eq_some] at h
        obtain ⟨p, hone, hrest⟩ := h
        exact a1ProcessList_inv rest p.1 p.2 st2 rep2 hrest
          (a1ProcessOne_reports hone)
      · have hmem2 : a ∈ rest := by
          cases hmem with
          | head => exact absurd rfl hac
          | tail _ hh => exact hh
        cases hm : msg c with
        | none =>
            rw [a1ProcessList, hm] at h
            exact ih st rep st2 rep2 hmem2 h
        | some w =>
            rw [a1ProcessList, hm, Option.bind_eq_some] at h
            obtain ⟨p, hone, hrest⟩ := h
            exact ih p.1 p.2 st2 rep2 hmem2 hrest

theorem a1ProcessList_mono {msg : A1Attr → Option Nat} {a : A1Attr} :
    ∀ (L : List A1Attr) (st : A1State) (rep : A1Report)
      (st2 : A1State) (rep2 : A1Report),
      a1ProcessList msg L st rep = some (st2, rep2) →
      (rep a).isSome → (rep2 a).isSome := by
  intro L
  induction L with
  | nil =>
      intro st rep st2 rep2 h hSome
      simp only [a1ProcessList, Option.some_inj, Prod.mk.injEq] at h
      rw [← h.2]
      exact hSome
  | cons c rest ih =>
      intro st rep st2 rep2 h hSome
      cases hm : msg c with
      | none =>
          rw [a1ProcessList, hm] at h
          exact ih st rep st2 rep2 h hSome
      | some v =>
          rw [a1ProcessList, hm, Option.bind_eq_some] at h
          obtain ⟨p, hone, hrest⟩ := h
          exact ih p.1 p.2 st2 rep2 hrest (a1ProcessOne_mono hone a hSome)

theorem a1ProcessList_tank_full {msg : A1Attr → Option Nat} :
    ∀ (L : List A1Attr) (st : A1State) (rep : A1Report)
      (st2 : A1State) (rep2 : A1Report),
      a1ProcessList msg L st rep = some (st2, rep2) →
      (st2 A1Attr.tank_full = st A1Attr.tank_full
        ∧ rep2 A1Attr.tank_full = rep A1Attr.tank_full)
      ∨ (rep2 A1Attr.tank_full).isSome := by
  intro L
  induction L with
  | nil =>
      intro st rep st2 rep2 h
      simp only [a1ProcessList, Option.some_inj, Prod.mk.injEq] at h
      rw [← h.1, ← h.2]
      exact Or.inl ⟨rfl, rfl⟩
  | cons c rest ih =>
      intro st rep st2 rep2 h
      cases hm : msg c with
      | none =>
          rw [a1ProcessList, hm] at h
          exact ih st rep st2 rep2 h
      | some v =>
          rw [a1ProcessList, hm, Option.bind_eq_some] at h
          obtain ⟨p, hone, hrest⟩ := h
          cases a1ProcessOne_tank_full hone with
          | inl h1 =>
              cases ih p.1 p.2 st2 rep2 hrest with
              | inl h2 =>
                  exact Or.inl ⟨h2.1.trans h1.1, h2.2.trans h1.2⟩
              | inr h2 => exact Or.inr h2
          | inr h1 =>
              exact Or.inr (a1ProcessList_mono rest p.1 p.2 st2 rep2 hrest h1)

theorem b1Update_same (st : B1State) (a : B1Attr) (v : Value) :
    b1Update st a v a = v := by simp [b1Update]

theorem b1Update_other (st : B1State) (a : B1Attr) (v : Value) (b : B1Attr)
    (h : b ≠ a) : b1Update st a v b = st b := by simp [b1Update, h]

theorem b1RepUpdate_same (rep : B1Report) (a : B1Attr) (v : Value) :
    b1RepUpdate rep a v a = some v := by simp [b1RepUpdate]

theorem b1RepUpdate_other (rep : B1Report) (a : B1Attr) (v : Value)
    (b : B1Attr) (h : b ≠ a) : b1RepUpdate rep a v b = rep b := by
  simp [b1RepUpdate, h]

theorem b1ProcessList_absent {msg : B1Attr → Option Nat} {a : B1Attr}
    (ha : msg a = none) :
    ∀ (L : List B1Attr) (st : B1State) (rep : B1Report),
      (b1ProcessList msg L st rep).1 a = st a
      ∧ (b1ProcessList msg L st rep).2 a = rep a := by
  intro L
  induction L with
  | nil => intro st rep; exact ⟨rfl, rfl⟩
  | cons c rest ih =>
      intro st rep
      cases hm : msg c with
      | none => rw [b1ProcessList, hm]; exact ih st rep
      | some v =>
          rw [b1ProcessList, hm]
          have hac : a ≠ c := by
            intro hh; rw [hh, hm] at ha; cases ha
          obtain ⟨hs, hr⟩ := ih (b1Update st c (b1DecodeField c v))
            (b1RepUpdate rep c (b1DecodeField c v))
          exact ⟨hs.trans (b1Update_other _ _ _ _ hac),
            hr.trans (b1RepUpdate_other _ _ _ _ hac)⟩

theorem b1ProcessList_inv {msg : B1Attr → Option Nat} {a : B1Attr} :
    ∀ (L : List B1Attr) (st : B1State) (rep : B1Report),
      rep a = some (st a) →
      (b1ProcessList msg L st rep).2 a
        = some ((b1ProcessList msg L st rep).1 a) := by
  intro L
  induction L with
  | nil => intro st rep hInv; exact hInv
  | cons c rest ih =>
      intro st rep hInv
      cases hm : msg c with
      | none => rw [b1ProcessList, hm]; exact ih st rep hInv
      | some v =>
          rw [b1ProcessList, hm]
          refine ih _ _ ?_
          by_cases hac : a = c
          · subst hac; rw [b1RepUpdate_same, b1Update_same]
          · rw [b1RepUpdate_other _ _ _ _ hac, b1Update_other _ _ _ _ hac]
            exact hInv

theorem b1ProcessList_present {msg : B1Attr → Option Nat} {a : B1Attr}
    {v : Nat} (ha : msg a = some v) :
    ∀ (L : List B1Attr) (st : B1State) (rep : B1Report), a ∈ L →
      (b1ProcessList msg L st rep).2 a
        = some ((b1ProcessList msg L st rep).1 a) := by
  intro L
  induction L with
  | nil => intro st rep hmem; cases hmem
  | cons c rest ih =>
      intro st rep hmem
      by_cases hac : a = c
      · subst hac
        rw [b1ProcessList, ha]
        exact b1ProcessList_inv rest _ _
          (by rw [b1RepUpdate_same, b1Update_same])
      · have hmem2 : a ∈ rest := by
          cases hmem with
          | head => exact absurd rfl hac
          | tail _ hh => exact hh
        cases hm : msg c with
        | none => rw [b1ProcessList, hm]; exact ih st rep hmem2
        | some w => rw [b1ProcessList, hm]; exact ih _ _ hmem2

theorem a1AttrList_mem : ∀ a : A1Attr, a ∈ a1AttrList := by
  intro a; cases a <;> simp [a1AttrList]

theorem b1AttrList_mem : ∀ a : B1Attr, a ∈ b1AttrList := by
  intro a; cases a <;> simp [b1AttrList]

theorem ecUpdate_same (st : ECState) (a : ECAttr) (v : Value) :
    ecUpdate st a v a = v := by simp [ecUpdate]

theorem ecUpdate_other (st : ECState) (a : ECAttr) (v : Value) (b : ECAttr)
    (h : b ≠ a) : ecUpdate st a v b = st b := by simp [ecUpdate, h]

theorem ecRepUpdate_same (rep : ECReport) (a : ECAttr) (v : Value) :
    ecRepUpdate rep a v a = some v := by simp [ecRepUpdate]

theorem ecRepUpdate_other (rep : ECReport) (a : ECAttr) (v : Value)
    (b : ECAttr) (h : b ≠ a) : ecRepUpdate rep a v b = rep b := by
  simp [ecRepUpdate, h]

theorem ecProcessList_absent {msg : ECAttr → Option Nat} {a : ECAttr}
    (ha : msg a = none) :
    ∀ (L : List ECAttr) (st : ECState) (rep : ECReport),
      (ecProcessList msg L st rep).1 a = st a
      ∧ (ecProcessList msg L st rep).2 a = rep a := by
  intro L
  induction L with
  | nil => intro st rep; exact ⟨rfl, rfl⟩
  | cons c rest ih =>
      intro st rep
      cases hm : msg c with
      | none => rw [ecProcessList, hm]; exact ih st rep
      | some v =>
          rw [ecProcessList, hm]
          have hac : a ≠ c := by
            intro hh; rw [hh, hm] at ha; cases ha
          obtain ⟨hs, hr⟩ := ih (ecUpdate st c (ecDecodeField c v))
            (ecRepUpdate rep c (ecDecodeField c v))
          exact ⟨hs.trans (ecUpdate_other _ _ _ _ hac),
            hr.trans (ecRepUpdate_other _ _ _ _ hac)⟩

theorem ecProcessList_inv {msg : ECAttr → Option Nat} {a : ECAttr} :
    ∀ (L : List ECAttr) (st : ECState) (rep : ECReport),
      rep a = some (st a) →
      (ecProcessList msg L st rep).2 a
        = some ((ecProcessList msg L st rep).1 a) := by
  intro L
  induction L with
  | nil => intro st rep hInv; exact hInv
  | cons c rest ih =>
      intro st rep hInv
      cases hm : msg c with
      | none => rw [ecProcessList, hm]; exact ih st rep hInv
      | some v =>
          rw [ecProcessList, hm]
          refine ih _ _ ?_
          by_cases hac : a = c
          · subst hac; rw [ecRepUpdate_same, ecUpdate_same]
          · rw [ecRepUpdate_other _ _ _ _ hac, ecUpdate_other _ _ _ _ hac]
            exact hInv

theorem ecProcessList_present {msg : ECAttr → Option Nat} {a : ECAttr}
    {v : Nat} (ha : msg a = some v) :
    ∀ (L : List ECAttr) (st : ECState) (rep : ECReport), a ∈ L →
      (ecProcessList msg L st rep).2 a
        = some ((ecProcessList msg L st rep).1 a) := by
  intro L
  induction L with
  | nil => intro st rep hmem; cases hmem
  | cons c rest ih =>
      intro st rep hmem
      by_cases hac : a = c
      · subst hac
        rw [ecProcessList, ha]
        exact ecProcessList_inv rest _ _
          (by rw [ecRepUpdate_same, ecUpdate_same])
      · have hmem2 : a ∈ rest := by
          cases hmem with
          | head => exact absurd rfl hac
          | tail _ hh => exact hh
        cases hm : msg c with
        | none => rw [ecProcessList, hm]; exact ih st rep hmem2
        | some w => rw [ecProcessList, hm]; exact ih _ _ hmem2

theorem ecAttrList_mem : ∀ a : ECAttr, a ∈ ecAttrList := by
  intro a; cases a <;> simp [ecAttrList]

/-- C8: in every decode pass of every variant (A1, B1, EC), an attribute absent from the
inbound message keeps its previous stored value and does not appear in the
report; every exposed attribute appears in the report at its up-to-date
(final) stored value even if unchanged; the report holds nothing but the
exposed attributes plus possibly the derived `tank_full`; and when
`tank_full` is not reported it was not changed by the pass. -/
theorem c8_frame_and_snapshot_report :
    (∀ (d d2 : A1Device) (m : A1Msg) (rep : A1Report),
        a1ProcessMessage d m = some (d2, rep) →
        (∀ a, a ≠ A1Attr.tank_full → m.fields a = none →
            d2.attributes a = d.attributes a ∧ rep a = none)
        ∧ (∀ a v, m.fields a = some v → rep a = some (d2.attributes a))
        ∧ (∀ a, a ≠ A1Attr.tank_full → rep a ≠ none → m.fields a ≠ none)
        ∧ (rep A1Attr.tank_full = none →
            d2.attributes A1Attr.tank_full = d.attributes A1Attr.tank_full))
    ∧ (∀ (d : B1Device) (m : B1Msg),
        (∀ a, m.fields a = none →
            (b1ProcessMessage d m).1.attributes a = d.attributes a
            ∧ (b1ProcessMessage d m).2 a = none)
        ∧ (∀ a v, m.fields a = some v →
            (b1ProcessMessage d m).2 a
              = some ((b1ProcessMessage d m).1.attributes a))
        ∧ (∀ a, (b1ProcessMessage d m).2 a ≠ none →
            m.fields a ≠ none))
    ∧ (∀ (d : ECDevice) (m : ECMsg),
        (∀ a, m.fields a = none →
            (ecProcessMessage d m).1.attributes a = d.attributes a
            ∧ (ecProcessMessage d m).2 a = none)
        ∧ (∀ a v, m.fields a = some v →
            (ecProcessMessage d m).2 a
              = some ((ecProcessMessage d m).1.attributes a))
        ∧ (∀ a, (ecProcessMessage d m).2 a ≠ none →
            m.fields a ≠ none)) := by
  constructor
  · intro d d2 m rep h
    simp only [a1ProcessMessage, Option.map_eq_some'] at h
    obtain ⟨p, hp, heq⟩ := h
    rw [Prod.mk.injEq] at heq
    obtain ⟨hd, hrep⟩ := heq
    have hattr : d2.attributes = p.1 := by rw [← hd]
    have hrep2 : rep = p.2 := hrep.symm
    refine ⟨?_, ?_, ?_, ?_⟩
    · intro a hatf ha
      obtain ⟨hs, hr⟩ := a1ProcessList_absent ha hatf a1AttrList
        d.attributes a1EmptyReport p.1 p.2 hp
      rw [hattr, hrep2]
      exact ⟨hs, hr⟩
    · intro a v ha
      rw [hattr, hrep2]
      exact a1ProcessList_present ha a1AttrList d.attributes a1EmptyReport
        p.1 p.2 (a1AttrList_mem a) hp
    · intro a hatf hne ha
      obtain ⟨hs, hr⟩ := a1ProcessList_absent ha hatf a1AttrList
        d.attributes a1EmptyReport p.1 p.2 hp
      rw [hrep2] at hne
      exact hne hr
    · intro htf
      rw [hattr]
      cases a1ProcessList_tank_full a1AttrList d.attributes a1EmptyReport
          p.1 p.2 hp with
      | inl h1 => exact h1.1
      | inr h1 =>
          rw [hrep2] at htf
          rw [htf] at h1
          cases h1
  constructor
  · intro d m
    refine ⟨?_, ?_, ?_⟩
    · intro a ha
      exact b1ProcessList_absent ha b1AttrList d.attributes b1EmptyReport
    · intro a v ha
      exact b1ProcessList_present ha b1AttrList d.attributes b1EmptyReport
        (b1AttrList_mem a)
    · intro a hne ha
      exact hne (b1ProcessList_absent ha b1AttrList d.attributes
        b1EmptyReport).2
  · intro d m
    refine ⟨?_, ?_, ?_⟩
    · intro a ha
      exact ecProcessList_absent ha ecAttrList d.attributes ecEmptyReport
    · intro a v ha
      exact ecProcessList_present ha ecAttrList d.attributes ecEmptyReport
        (ecAttrList_mem a)
    · intro a hne ha
      exact hne (ecProcessList_absent ha ecAttrList d.attributes
        ecEmptyReport).2

/-- An inbound A1 message exposing only the mode field, raw value 3. -/
def c8WitnessMsg : A1Msg :=
  { protocol_version := 3,
    fields := fun a => if a = A1Attr.mode then some 3 else none }

/-- The stored attributes after the constructed device processes
`c8WitnessMsg`. -/
def c8WitnessState : A1State :=
  a1Update (a1Update a1InitialAttributes A1Attr.mode (Value.vStr "Auto"))
    A1Attr.tank_full (Value.vBool false)

/-- The device after the constructed device processes `c8WitnessMsg`. -/
def c8WitnessDevice : A1Device :=
  { protocol_version := 3, attributes := c8WitnessState }

/-- The report of that decode pass. -/
def c8WitnessReport : A1Report :=
  a1RepUpdate
    (a1RepUpdate a1EmptyReport A1Attr.tank_full (Value.vBool false))
    A1Attr.mode (Value.vStr "Auto")

/-- An inbound B1 message exposing only the status field, raw value 4. -/
def c8WitnessB1Msg : B1Msg :=
  { protocol_version := 0,
    fields := fun a => if a = B1Attr.status then some 4 else none }

/-- A B1 device in its constructed state. -/
def c8WitnessB1Device : B1Device :=
  { protocol_version := 0, attributes := b1InitialAttributes }

/-- The `attributes` dictionary passed to the EC constructor. -/
def ecInitialAttributes : ECState := fun a =>
  match a with
  | ECAttr.cooking => Value.vBool false
  | ECAttr.mode => Value.vInt 0
  | ECAttr.time_remaining => Value.vNone
  | ECAttr.top_temperature => Value.vNone
  | ECAttr.bottom_temperature => Value.vNone
  | ECAttr.keep_warm_time => Value.vNone
  | ECAttr.progress => Value.vStr "Unknown"
  | ECAttr.with_pressure => Value.vNone

/-- An inbound EC message exposing only the progress field, raw value 1. -/
def c8WitnessECMsg : ECMsg :=
  { protocol_version := 0,
    fields := fun a => if a = ECAttr.progress then some 1 else none }

/-- An EC device in its constructed state. -/
def c8WitnessECDevice : ECDevice :=
  { protocol_version := 0, attributes := ecInitialAttributes }

/-- C8 witness: processing a message exposing only `mode` (raw 3) on the
constructed A1 device leaves `swing` untouched and unreported while `mode`
is reported at its stored value; a B1 message exposing `status` reports it
at its stored value; an EC message exposing `progress` reports it at its
stored value and leaves the absent `cooking` untouched and unreported. -/
theorem c8_frame_and_snapshot_report_witness :
    ((c8WitnessDevice.attributes A1Attr.swing
        = a1DefaultDevice.attributes A1Attr.swing
      ∧ c8WitnessReport A1Attr.swing = none)
     ∧ c8WitnessReport A1Attr.mode
        = some (c8WitnessDevice.attributes A1Attr.mode))
    ∧ (b1ProcessMessage c8WitnessB1Device c8WitnessB1Msg).2 B1Attr.status
        = some ((b1ProcessMessage c8WitnessB1Device
            c8WitnessB1Msg).1.attributes B1Attr.status)
    ∧ ((ecProcessMessage c8WitnessECDevice c8WitnessECMsg).2 ECAttr.progress
        = some ((ecProcessMessage c8WitnessECDevice
            c8WitnessECMsg).1.attributes ECAttr.progress)
      ∧ (ecProcessMessage c8WitnessECDevice
            c8WitnessECMsg).1.attributes ECAttr.cooking
          = c8WitnessECDevice.attributes ECAttr.cooking
      ∧ (ecProcessMessage c8WitnessECDevice c8WitnessECMsg).2 ECAttr.cooking
          = none) := by
  have h := c8_frame_and_snapshot_report.1 a1DefaultDevice c8WitnessDevice
    c8WitnessMsg c8WitnessReport rfl
  have hb := (c8_frame_and_snapshot_report.2.1 c8WitnessB1Device
    c8WitnessB1Msg).2.1 B1Attr.status 4 (by decide)
  have hec := c8_frame_and_snapshot_report.2.2 c8WitnessECDevice
    c8WitnessECMsg
  have hec1 := hec.2.1 ECAttr.progress 1 (by decide)
  have hec2 := hec.1 ECAttr.cooking (by decide)
  exact ⟨⟨h.1 A1Attr.swing (by decide) (by decide),
    h.2.1 A1Attr.mode 3 (by decide)⟩, hb, hec1, hec2.1, hec2.2⟩
